import Mathlib

/-!
Verification development for the improver repository: shallow embeddings of
`improver/utilities/solar.py` (solar geometry and the day/night mask),
`improver/utilities/field_texture.py` (the FieldTexture plugin), and the
OccurrenceWithinVicinity plugin (modelled from the specification, since only
its unit tests appear in the source tree), together with theorems settling
the specification claims.

Numeric conventions: Python floats are modelled as real numbers `ℝ` where
transcendental functions are involved (solar geometry) and as rationals `ℚ`
elsewhere; NumPy integer mask arrays become `ℤ`-valued functions; 2-D arrays
become functions `ℕ → ℕ → _` together with explicit bounds `m`, `n`.
-/

/- ## Solar geometry: `improver/utilities/solar.py` -/

/-- `math.radians`: degrees to radians. -/
noncomputable def radians (d : ℝ) : ℝ := d * (Real.pi / 180)

/-- `np.degrees` / `math.degrees`: radians to degrees. -/
noncomputable def degrees (r : ℝ) : ℝ := r * (180 / Real.pi)

/-- `solar_declination(day_of_year)` from solar.py:
`declination = -23.5 * math.cos(math.radians(0.9856 * day_of_year + 9.3))`. -/
noncomputable def solar_declination (day_of_year : ℝ) : ℝ :=
  -23.5 * Real.cos (radians (0.9856 * day_of_year + 9.3))

/-- `solar_hour_angle(longitudes, day_of_year, utc_hour)` from solar.py,
for a single longitude value. -/
noncomputable def solar_hour_angle (longitude day_of_year utc_hour : ℝ) : ℝ :=
  let thetao : ℝ := 2 * Real.pi * day_of_year / 365.0
  let eqt : ℝ := 0.000075 + 0.001868 * Real.cos thetao -
    0.032077 * Real.sin thetao - 0.014615 * Real.cos (2 * thetao) -
    0.040849 * Real.sin (2 * thetao)
  let lon_correction : ℝ := 24.0 * longitude / 360.0
  let solar_time : ℝ := utc_hour + lon_correction + eqt * 12 / Real.pi
  (solar_time - 12.0) * 15.0

/-- `solar_elevation(latitudes, longitudes, day_of_year, utc_hour)` from
solar.py, for a single latitude/longitude pair: `decl` is the declination in
radians, `rad_hours` the hour angle in radians, `lats` the latitude in
radians, and the result is
`np.degrees(np.arcsin(sin(decl)*sin(lats) + cos(decl)*cos(lats)*cos(rad_hours)))`. -/
noncomputable def solar_elevation (latitude longitude day_of_year utc_hour : ℝ) : ℝ :=
  degrees (Real.arcsin
    (Real.sin (radians (solar_declination day_of_year)) *
        Real.sin (radians latitude) +
      Real.cos (radians (solar_declination day_of_year)) *
        Real.cos (radians latitude) *
        Real.cos (radians (solar_hour_angle longitude day_of_year utc_hour))))

/-- `daynight_terminator(longitudes, day_of_year, utc_hour)` from solar.py,
for a single longitude value:
`lats = np.degrees(np.arctan(-np.cos(rad_hour)/np.tan(decl)))` where `decl`
is the declination in radians and `rad_hour` the hour angle in radians. -/
noncomputable def daynight_terminator (longitude day_of_year utc_hour : ℝ) : ℝ :=
  degrees (Real.arctan
    (-Real.cos (radians (solar_hour_angle longitude day_of_year utc_hour)) /
      Real.tan (radians (solar_declination day_of_year))))

/- ### The day/night mask, geographic (lat/lon) branch

In `daynight_mask`, `lats_on_lon = lats.reshape(len(lats), 1) + lons_ones`
with `lons_ones = np.ones_like(lons)`, so entry `(i, j)` holds
`lats[i] + 1`; similarly `terminator_on_lon = lats_ones + terminator_lats`
holds `1 + terminator_lats[j]`. -/

/-- Entry `(i, j)` of `lats_on_lon` in `daynight_mask` (solar.py line 200). -/
noncomputable def lats_on_lon (lats : ℕ → ℝ) (i j : ℕ) : ℝ := lats i + 1

/-- Entry `(i, j)` of `terminator_on_lon` in `daynight_mask`
(solar.py line 201). -/
noncomputable def terminator_on_lon (lons : ℕ → ℝ) (day_of_year : ℕ)
    (utc_hour : ℝ) (i j : ℕ) : ℝ :=
  1 + daynight_terminator (lons j) (day_of_year : ℝ) utc_hour

/-- The geographic branch of `daynight_mask` (solar.py lines 194-206):
`mask_data` starts as zeros; where `dec > 0.0` cells with
`lats_on_lon >= terminator_on_lon` are set to 1, otherwise cells with
`lats_on_lon < terminator_on_lon` are set to 1. -/
noncomputable def daynight_mask_latlon (lats lons : ℕ → ℝ) (day_of_year : ℕ)
    (utc_hour : ℝ) (i j : ℕ) : ℤ :=
  if solar_declination (day_of_year : ℝ) > 0.0 then
    if lats_on_lon lats i j ≥ terminator_on_lon lons day_of_year utc_hour i j
      then 1 else 0
  else
    if lats_on_lon lats i j < terminator_on_lon lons day_of_year utc_hour i j
      then 1 else 0

/- ### The day/night mask, projected branch

In `daynight_mask`, `all_x_points = y_ones.reshape(len(y_ones), 1) + x_points`
with `y_ones = np.ones_like(y_points)`, so entry `(i, j)` holds
`1 + x_points[j]`; similarly `all_y_points = y_points.reshape(...) + x_ones`
holds `y_points[i] + 1`.  `transform_points` maps a native `(x, y)` pair to
`(longitude, latitude)`; it is the external projection collaborator and is a
parameter here. -/

/-- Entry `(i, j)` of `all_x_points` in `daynight_mask` (solar.py line 185). -/
noncomputable def all_x_points (x_points y_points : ℕ → ℝ) (i j : ℕ) : ℝ :=
  1 + x_points j

/-- Entry `(i, j)` of `all_y_points` in `daynight_mask` (solar.py line 186). -/
noncomputable def all_y_points (x_points y_points : ℕ → ℝ) (i j : ℕ) : ℝ :=
  y_points i + 1

/-- The projected branch of `daynight_mask` (solar.py lines 178-193):
transform the `all_x_points`/`all_y_points` arrays with the projection
collaborator, take `lons = points[:, :, 0]` and `lats = points[:, :, 1]`,
and set the mask to 1 where `solar_elevation > 0.0`. -/
noncomputable def daynight_mask_proj (x_points y_points : ℕ → ℝ)
    (transform : ℝ → ℝ → ℝ × ℝ) (day_of_year : ℕ) (utc_hour : ℝ)
    (i j : ℕ) : ℤ :=
  let pt := transform (all_x_points x_points y_points i j)
    (all_y_points x_points y_points i j)
  if solar_elevation pt.2 pt.1 (day_of_year : ℝ) utc_hour > 0.0 then 1 else 0

/-- Following claim C2's words (the specification, section 4.2 step 2): the
cell's own native `(x, y)` coordinate is transformed to `(lat, lon)` via the
projection collaborator and the mask is 1 exactly where the solar elevation
at that projected position is strictly positive.  Stated for comparison with
`daynight_mask_proj`, which embeds the source. -/
noncomputable def daynight_mask_proj_claim (x_points y_points : ℕ → ℝ)
    (transform : ℝ → ℝ → ℝ × ℝ) (day_of_year : ℕ) (utc_hour : ℝ)
    (i j : ℕ) : ℤ :=
  let pt := transform (x_points j) (y_points i)
  if solar_elevation pt.2 pt.1 (day_of_year : ℝ) utc_hour > 0.0 then 1 else 0

/- ### The per-slice time handling of `daynight_mask` (solar.py lines 175-177)

`dtval` is a Python `datetime`; `day_of_year = (dtval - datetime(year, 1, 1)).days + 1`
is the 1-based ordinal day within the year (the time-of-day part of `dtval`
is nonnegative, so the `.days` component of the difference is the whole-day
count), and `utc_hour = (dtval.hour * 60.0 + dtval.minute) / 60.0`. -/

/-- A Python `datetime.datetime` value, to second granularity. -/
structure PyDateTime where
  year : ℕ
  month : ℕ
  day : ℕ
  hour : ℕ
  minute : ℕ
  second : ℕ

/-- Gregorian leap-year rule used by `datetime`. -/
def isLeapYear (y : ℕ) : Bool := (y % 4 == 0 && y % 100 != 0) || y % 400 == 0

/-- Length of calendar month `m` (1-12); 0 for out-of-range `m`. -/
def monthLength (leap : Bool) (m : ℕ) : ℕ :=
  match m with
  | 1 => 31
  | 2 => if leap then 29 else 28
  | 3 => 31
  | 4 => 30
  | 5 => 31
  | 6 => 30
  | 7 => 31
  | 8 => 31
  | 9 => 30
  | 10 => 31
  | 11 => 30
  | 12 => 31
  | _ => 0

/-- `day_of_year = (dtval - dt.datetime(dtval.year, 1, 1)).days + 1`
(solar.py line 176): the 1-based ordinal day of `t` within its year. -/
def dayOfYear (t : PyDateTime) : ℕ :=
  (∑ m in Finset.range t.month, monthLength (isLeapYear t.year) m) + t.day

/-- `utc_hour = (dtval.hour * 60.0 + dtval.minute) / 60.0`
(solar.py line 177). -/
def utcHour (t : PyDateTime) : ℚ := ((t.hour : ℚ) * 60 + (t.minute : ℚ)) / 60

/-- One slice of `daynight_mask` on a geographic grid: derive `day_of_year`
and `utc_hour` from the slice's time value, then classify each cell. -/
noncomputable def daynight_mask_latlon_slice (lats lons : ℕ → ℝ)
    (t : PyDateTime) (i j : ℕ) : ℤ :=
  daynight_mask_latlon lats lons (dayOfYear t) ((utcHour t : ℚ) : ℝ) i j

/-- One slice of `daynight_mask` on a projected grid: derive `day_of_year`
and `utc_hour` from the slice's time value, then classify each cell. -/
noncomputable def daynight_mask_proj_slice (x_points y_points : ℕ → ℝ)
    (transform : ℝ → ℝ → ℝ × ℝ) (t : PyDateTime) (i j : ℕ) : ℤ :=
  daynight_mask_proj x_points y_points transform (dayOfYear t)
    ((utcHour t : ℚ) : ℝ) i j

/- ## VicinityFilter (OccurrenceWithinVicinity)

The implementation (`improver/utilities/spatial.py`) is not in the source
tree; only its unit tests are.  The component is therefore modelled from the
specification (sections 4.3 and 8) and checked against the expectations of
`improver_tests/utilities/test_OccurrenceWithinVicinity.py`. -/

/-- Modelled from the spec: OccurrenceWithinVicinity configuration.
`radius` (physical distance) XOR `grid_point_radius` (integer cell count);
supplying both is a configuration error raised at construction time with the
message the tests match ("Only one of radius or grid_point_radius should be
set"). -/
def mkOccurrenceWithinVicinity (radius : Option ℚ) (grid_point_radius : Option ℕ) :
    Except String (Option ℚ × Option ℕ) :=
  if radius.isSome && grid_point_radius.isSome then
    Except.error "Only one of radius or grid_point_radius should be set"
  else
    Except.ok (radius, grid_point_radius)

/-- Modelled from the spec: convert the configured radius into an integer
neighbourhood half-width in grid cells — for a physical distance, divide by
the grid's cell spacing and round to a whole number of cells; for a
grid-cell radius, use it directly; neither supplied means radius 0
(identity). -/
def gridPointRadius (radius : Option ℚ) (grid_point_radius : Option ℕ)
    (spacing : ℚ) : ℕ :=
  match radius, grid_point_radius with
  | some r, _ => (round (r / spacing)).toNat
  | none, some g => g
  | none, none => 0

/-- Modelled from the spec: the cells eligible to contribute to the
neighbourhood maximum at `(i, j)` — cells of the `m × n` grid within the
square neighbourhood of half-width `r`, valid in the input, and on the same
side of the land/sea split as `(i, j)` (with no land mask, `land` is
constant and the last condition is vacuous). -/
def vicinityEligible (m n r : ℕ) (valid land : ℕ → ℕ → Bool) (i j : ℕ) :
    Finset (ℕ × ℕ) :=
  (Finset.range m ×ˢ Finset.range n).filter fun p =>
    Nat.dist i p.1 ≤ r ∧ Nat.dist j p.2 ≤ r ∧ valid p.1 p.2 = true ∧
      land p.1 p.2 = land i j

/-- Modelled from the spec: `maximum_within_vicinity` on one 2-D slice.  A
valid cell receives the maximum of the input over its eligible cells (its
own value seeds the fold; a valid cell is always eligible for itself); an
invalid (masked) cell keeps its input value and stays masked — the output
validity mask is the input's own validity mask unchanged. -/
def maximum_within_vicinity (m n r : ℕ) (f : ℕ → ℕ → ℚ)
    (valid land : ℕ → ℕ → Bool) (i j : ℕ) : ℚ :=
  if valid i j = true then
    (vicinityEligible m n r valid land i j).fold max (f i j) fun p => f p.1 p.2
  else f i j

/-- Modelled from the spec: the full per-slice output of the vicinity filter,
as a (values, validity-mask) pair; the validity mask of the output is the
input's. -/
def vicinityProcess (m n r : ℕ) (f : ℕ → ℕ → ℚ) (valid land : ℕ → ℕ → Bool) :
    (ℕ → ℕ → ℚ) × (ℕ → ℕ → Bool) :=
  (maximum_within_vicinity m n r f valid land, valid)

/-- Row-major cell lookup in a list-of-rows matrix literal, defaulting to 0;
used to transcribe the test fixtures. -/
def cellAt (rows : List (List ℚ)) (i j : ℕ) : ℚ := (rows.getD i []).getD j 0

/-- The input grid of `test_basic`: zeros except `1.0` at row 0 col 1 and
row 2 col 3. -/
def vicinityBasicInput : ℕ → ℕ → ℚ :=
  cellAt [[0, 1, 0, 0, 0], [0, 0, 0, 0, 0], [0, 0, 0, 1, 0],
    [0, 0, 0, 0, 0], [0, 0, 0, 0, 0]]

/-- The `binary_expected` fixture of test_OccurrenceWithinVicinity.py. -/
def binary_expected : ℕ → ℕ → ℚ :=
  cellAt [[1, 1, 1, 0, 0], [1, 1, 1, 1, 1], [0, 0, 1, 1, 1],
    [0, 0, 1, 1, 1], [0, 0, 0, 0, 0]]

/-- All cells valid (no validity mask). -/
def allValid : ℕ → ℕ → Bool := fun _ _ => true

/-- No land mask: every cell on the same (trivial) side. -/
def noLand : ℕ → ℕ → Bool := fun _ _ => false

/-- The input grid of `test_masked_data`: `1.0` at (0,1) and (2,3), `10.0`
at (0,4). -/
def vicinityMaskedInput : ℕ → ℕ → ℚ :=
  cellAt [[0, 1, 0, 0, 10], [0, 0, 0, 0, 0], [0, 0, 0, 1, 0],
    [0, 0, 0, 0, 0], [0, 0, 0, 0, 0]]

/-- The validity mask of `test_masked_data`: cell (0,4) is invalid, all
others valid. -/
def maskedValid : ℕ → ℕ → Bool := fun i j => !(i == 0 && j == 4)

/-- The expected output data of `test_masked_data`. -/
def maskedExpected : ℕ → ℕ → ℚ :=
  cellAt [[1, 1, 1, 0, 10], [1, 1, 1, 1, 1], [0, 0, 1, 1, 1],
    [0, 0, 1, 1, 1], [0, 0, 0, 0, 0]]

/-- The land mask of `land_mask_cube_generator`: land (1) on columns 3-4,
sea (0) elsewhere. -/
def landCols34 : ℕ → ℕ → Bool := fun _ j => decide (3 ≤ j)

/-- The expected output of `test_with_land_mask`. -/
def landMaskExpected : ℕ → ℕ → ℚ :=
  cellAt [[1, 1, 1, 10, 10], [1, 1, 1, 10, 10], [0, 0, 0, 1, 1],
    [0, 0, 0, 1, 1], [0, 0, 0, 0, 0]]

/- ## FieldTexture: `improver/utilities/field_texture.py` -/

/-- Index clamping used by `np.pad(data, 1, mode="edge")`: an out-of-range
index is clamped into `[0, m-1]`. -/
def clampIdx (m : ℕ) (i : ℤ) : ℕ := (min (max i 0) ((m : ℤ) - 1)).toNat

/-- Reading the edge-padded array at integer offsets: `padGet m n f i j`
is the padded value whose interior part is `f`. -/
def padGet (m n : ℕ) (f : ℕ → ℕ → ℚ) (i j : ℤ) : ℚ :=
  f (clampIdx m i) (clampIdx n j)

/-- `FieldTexture._calculate_transitions(data)` (field_texture.py lines
149-172): pad by one cell replicating the edge, take absolute differences
along each axis (`diff_x`, `diff_y`), and sum, for each cell, the absolute
differences to its four orthogonal neighbours in the padded array
(`cell_sum_x[1:-1, :] + cell_sum_y[:, 1:-1]` unfolds to exactly these four
terms); finally zero the result where `data <= 0`
(`np.where(data > 0, cell_sum, 0)`). -/
def calculate_transitions (m n : ℕ) (f : ℕ → ℕ → ℚ) (i j : ℕ) : ℚ :=
  if f i j > 0 then
    |padGet m n f (i : ℤ) ((j : ℤ) - 1) - padGet m n f (i : ℤ) (j : ℤ)| +
    |padGet m n f (i : ℤ) ((j : ℤ) + 1) - padGet m n f (i : ℤ) (j : ℤ)| +
    |padGet m n f ((i : ℤ) - 1) (j : ℤ) - padGet m n f (i : ℤ) (j : ℤ)| +
    |padGet m n f ((i : ℤ) + 1) (j : ℤ) - padGet m n f (i : ℤ) (j : ℤ)|
  else 0

/-- Modelled from the spec: the windowed-aggregation collaborator
(`SquareNeighbourhood(sum_or_fraction="sum")`, not in the source tree) —
the sum of the field over the square neighbourhood of half-width `r` cells
centred on `(i, j)`, clipped to the `m × n` grid. -/
def squareNbhdSum (m n r : ℕ) (f : ℕ → ℕ → ℚ) (i j : ℕ) : ℚ :=
  ∑ p in Finset.range m ×ˢ Finset.range n,
    if Nat.dist i p.1 ≤ r ∧ Nat.dist j p.2 ≤ r then f p.1 p.2 else 0

/-- The potential-transition field of `FieldTexture._calculate_ratio`
(field_texture.py lines 114-120): the windowed sum of the binary field,
times 4, zeroed where the cell's own value is not positive. -/
def potential_transitions (m n r : ℕ) (f : ℕ → ℕ → ℚ) (i j : ℕ) : ℚ :=
  if f i j > 0 then squareNbhdSum m n r f i j * 4 else 0

/-- The actual-transition neighbourhood sum of
`FieldTexture._calculate_ratio` (field_texture.py lines 122-132): the
windowed sum of `calculate_transitions`, zeroed where the cell's own value
is not positive. -/
def actual_transitions (m n r : ℕ) (f : ℕ → ℕ → ℚ) (i j : ℕ) : ℚ :=
  if f i j > 0 then
    squareNbhdSum m n r (calculate_transitions m n f) i j
  else 0

/-- The ratio field of `FieldTexture._calculate_ratio` (field_texture.py
lines 134-141): `ratio = np.ones_like(...)` then
`np.divide(actual, potential, out=ratio, where=(cube.data > 0))` — the
quotient where the cell's own value is positive, 1 elsewhere. -/
def calculate_ratio (m n r : ℕ) (f : ℕ → ℕ → ℚ) (i j : ℕ) : ℚ :=
  if f i j > 0 then
    actual_transitions m n r f i j / potential_transitions m n r f i j
  else 1

/-- The validation condition of `FieldTexture.process` (field_texture.py
lines 190-192): some cell holds a value other than 0 and other than 1. -/
def hasNonBinary (m n : ℕ) (f : ℕ → ℕ → ℚ) : Prop :=
  ∃ i < m, ∃ j < n, f i j ≠ 0 ∧ f i j ≠ 1

instance (m n : ℕ) (f : ℕ → ℕ → ℚ) : Decidable (hasNonBinary m n f) := by
  unfold hasNonBinary
  infer_instance

/-- All cells of the `m × n` field are exactly 0 or 1. -/
def binaryField (m n : ℕ) (f : ℕ → ℕ → ℚ) : Prop :=
  ∀ i < m, ∀ j < n, f i j = 0 ∨ f i j = 1

instance (m n : ℕ) (f : ℕ → ℕ → ℚ) : Decidable (binaryField m n f) := by
  unfold binaryField
  infer_instance

/-- `FieldTexture.process` (field_texture.py lines 174-207) restricted to
one slice: raise "Incorrect input. Cube should hold binary data only" when
any cell is non-binary, before any ratio computation proceeds; otherwise
compute the ratio field. -/
def fieldTextureProcess (m n r : ℕ) (f : ℕ → ℕ → ℚ) :
    Except String (ℕ → ℕ → ℚ) :=
  if hasNonBinary m n f then
    Except.error "Incorrect input. Cube should hold binary data only"
  else
    Except.ok (calculate_ratio m n r f)

/- ## Helper lemmas -/

/-- The clamped index of the edge padding always lands inside a nonempty
axis. -/
lemma clampIdx_lt (m : ℕ) (hm : 0 < m) (i : ℤ) : clampIdx m i < m := by
  unfold clampIdx
  omega

/-- The windowed sum of a field that is nonnegative on the grid is
nonnegative. -/
lemma squareNbhdSum_nonneg (m n r : ℕ) (f : ℕ → ℕ → ℚ) (i j : ℕ)
    (hnn : ∀ a < m, ∀ b < n, 0 ≤ f a b) : 0 ≤ squareNbhdSum m n r f i j := by
  unfold squareNbhdSum
  refine Finset.sum_nonneg ?_
  intro p hp
  rcases Finset.mem_product.1 hp with ⟨hp1, hp2⟩
  split_ifs
  · exact hnn p.1 (Finset.mem_range.1 hp1) p.2 (Finset.mem_range.1 hp2)
  · exact le_refl 0

/-- The windowed sum of a nonnegative field dominates the centre cell's own
value: the square neighbourhood always contains its centre. -/
lemma squareNbhdSum_ge_center (m n r : ℕ) (f : ℕ → ℕ → ℚ) (i j : ℕ)
    (hi : i < m) (hj : j < n)
    (hnn : ∀ a < m, ∀ b < n, 0 ≤ f a b) : f i j ≤ squareNbhdSum m n r f i j := by
  unfold squareNbhdSum
  have hmem : (i, j) ∈ Finset.range m ×ˢ Finset.range n :=
    Finset.mem_product.2 ⟨Finset.mem_range.2 hi, Finset.mem_range.2 hj⟩
  have key := Finset.single_le_sum
    (f := fun p : ℕ × ℕ =>
      if Nat.dist i p.1 ≤ r ∧ Nat.dist j p.2 ≤ r then f p.1 p.2 else 0)
    (fun p hp => by
      rcases Finset.mem_product.1 hp with ⟨hp1, hp2⟩
      show 0 ≤ ite _ _ _
      split_ifs
      · exact hnn p.1 (Finset.mem_range.1 hp1) p.2 (Finset.mem_range.1 hp2)
      · exact le_refl 0) hmem
  simpa [Nat.dist_self] using key

/-- Pointwise domination on the grid carries over to windowed sums. -/
lemma squareNbhdSum_mono (m n r : ℕ) (f g : ℕ → ℕ → ℚ) (i j : ℕ)
    (hle : ∀ a < m, ∀ b < n, f a b ≤ g a b) :
    squareNbhdSum m n r f i j ≤ squareNbhdSum m n r g i j := by
  unfold squareNbhdSum
  refine Finset.sum_le_sum ?_
  intro p hp
  rcases Finset.mem_product.1 hp with ⟨hp1, hp2⟩
  split_ifs
  · exact hle p.1 (Finset.mem_range.1 hp1) p.2 (Finset.mem_range.1 hp2)
  · exact le_refl 0

/-- Two values that are each 0 or 1 differ by at most 1 in absolute value. -/
lemma abs_sub_le_one_of_binary {u v : ℚ} (hu : u = 0 ∨ u = 1)
    (hv : v = 0 ∨ v = 1) : |u - v| ≤ 1 := by
  rcases hu with hu | hu <;> rcases hv with hv | hv <;> rw [hu, hv] <;> norm_num

/-- The actual-transition count is nonnegative everywhere. -/
lemma transitions_nonneg (m n : ℕ) (f : ℕ → ℕ → ℚ) (a b : ℕ) :
    0 ≤ calculate_transitions m n f a b := by
  unfold calculate_transitions
  split_ifs
  · positivity
  · exact le_refl 0

/-- For a binary field the actual-transition count of a grid cell is at most
four times the cell's own value. -/
lemma transitions_le_four_mul (m n : ℕ) (f : ℕ → ℕ → ℚ)
    (hb : binaryField m n f) (a b : ℕ) (ha : a < m) (hbn : b < n) :
    calculate_transitions m n f a b ≤ 4 * f a b := by
  have hm : 0 < m := Nat.pos_of_ne_zero (by omega)
  have hn : 0 < n := Nat.pos_of_ne_zero (by omega)
  have hpad : ∀ x y : ℤ, padGet m n f x y = 0 ∨ padGet m n f x y = 1 := by
    intro x y
    exact hb (clampIdx m x) (clampIdx_lt m hm x) (clampIdx n y) (clampIdx_lt n hn y)
  unfold calculate_transitions
  split_ifs with hpos
  · have h1 := abs_sub_le_one_of_binary (hpad a ((b : ℤ) - 1)) (hpad a b)
    have h2 := abs_sub_le_one_of_binary (hpad a ((b : ℤ) + 1)) (hpad a b)
    have h3 := abs_sub_le_one_of_binary (hpad ((a : ℤ) - 1) b) (hpad a b)
    have h4 := abs_sub_le_one_of_binary (hpad ((a : ℤ) + 1) b) (hpad a b)
    have hone : f a b = 1 := by
      rcases hb a ha b hbn with h | h
      · rw [h] at hpos
        exact absurd hpos (lt_irrefl 0)
      · exact h
    rw [hone]
    linarith
  · rcases hb a ha b hbn with h | h
    · rw [h]
      norm_num
    · rw [h] at hpos
      exact absurd one_pos hpos

/-- For a binary field the potential-transition sum is strictly positive at
every grid cell whose own value is positive. -/
lemma potential_pos (m n r : ℕ) (f : ℕ → ℕ → ℚ) (hb : binaryField m n f)
    (i : ℕ) (hi : i < m) (j : ℕ) (hj : j < n) (hpos : f i j > 0) :
    0 < potential_transitions m n r f i j := by
  have hnn : ∀ a < m, ∀ b < n, 0 ≤ f a b := by
    intro a ha b hbn
    rcases hb a ha b hbn with h | h <;> rw [h] <;> norm_num
  have hc := squareNbhdSum_ge_center m n r f i j hi hj hnn
  unfold potential_transitions
  rw [if_pos hpos]
  have : 0 < squareNbhdSum m n r f i j := lt_of_lt_of_le hpos hc
  linarith

/-- For day of year 100 the argument of the declination cosine lies in the
second quadrant, so the cosine is negative and the declination positive. -/
lemma decl100_pos : 0 < solar_declination 100 := by
  unfold solar_declination radians
  have harg : (0.9856 * 100 + 9.3 : ℝ) * (Real.pi / 180) =
      107.86 * (Real.pi / 180) := by norm_num
  rw [harg]
  have hpi := Real.pi_pos
  have h1 : Real.pi / 2 < 107.86 * (Real.pi / 180) := by linarith
  have h2 : 107.86 * (Real.pi / 180) < Real.pi + Real.pi / 2 := by linarith
  have hc := Real.cos_neg_of_pi_div_two_lt_of_lt h1 h2
  nlinarith

/-- The declination never exceeds 23.5 degrees. -/
lemma decl100_le : solar_declination 100 ≤ 23.5 := by
  unfold solar_declination radians
  have hc := Real.neg_one_le_cos ((0.9856 * 100 + 9.3 : ℝ) * (Real.pi / 180))
  linarith

/-- On day 100 the solar elevation at the north pole is positive: at
latitude 90 the elevation reduces to `degrees (arcsin (sin decl))` and the
declination is positive. -/
lemma elev_north_pos : 0 < solar_elevation 90 0 100 12 := by
  unfold solar_elevation degrees
  rw [show radians 90 = Real.pi / 2 from by unfold radians; ring,
    Real.sin_pi_div_two, Real.cos_pi_div_two, mul_one, mul_zero, zero_mul,
    add_zero]
  have hpi := Real.pi_pos
  refine mul_pos (Real.arcsin_pos.2 ?_) (by positivity)
  refine Real.sin_pos_of_pos_of_lt_pi ?_ ?_
  · unfold radians
    exact mul_pos decl100_pos (by positivity)
  · unfold radians
    nlinarith [decl100_le, decl100_pos]

/-- On day 100 the solar elevation at the south pole is negative. -/
lemma elev_south_neg : solar_elevation (-90) 0 100 12 < 0 := by
  unfold solar_elevation degrees
  rw [show radians (-90) = -(Real.pi / 2) from by unfold radians; ring,
    Real.sin_neg, Real.cos_neg, Real.sin_pi_div_two, Real.cos_pi_div_two,
    mul_zero, zero_mul, add_zero]
  have hpi := Real.pi_pos
  have hs : 0 < Real.sin (radians (solar_declination 100)) := by
    refine Real.sin_pos_of_pos_of_lt_pi ?_ ?_
    · unfold radians
      exact mul_pos decl100_pos (by positivity)
    · unfold radians
      nlinarith [decl100_le, decl100_pos]
  have harc : Real.arcsin (Real.sin (radians (solar_declination 100)) * -1) < 0 := by
    refine Real.arcsin_lt_zero.2 ?_
    nlinarith
  have : (0:ℝ) < 180 / Real.pi := by positivity
  nlinarith

/- ## Claim theorems -/

/-- C1: on a geographic grid the day/night mask uses the asymmetric
terminator comparison — when the declination is positive a cell is day (1)
exactly where its latitude is `≥` the terminator latitude of its longitude
column, when the declination is `≤ 0` exactly where its latitude is `<` the
terminator latitude; every cell is 0 or 1.  (The `+1` that the ones-array
broadcast adds to both sides of the source's comparison cancels.) -/
theorem daynight_terminator_asymmetry (lats lons : ℕ → ℝ) (doy : ℕ)
    (utc : ℝ) (i j : ℕ) :
    (daynight_mask_latlon lats lons doy utc i j =
      if solar_declination (doy : ℝ) > 0.0 then
        if lats i ≥ daynight_terminator (lons j) (doy : ℝ) utc then 1 else 0
      else
        if lats i < daynight_terminator (lons j) (doy : ℝ) utc then 1 else 0) ∧
    (daynight_mask_latlon lats lons doy utc i j = 0 ∨
      daynight_mask_latlon lats lons doy utc i j = 1) := by
  unfold daynight_mask_latlon lats_on_lon terminator_on_lon
  constructor
  · by_cases hd : solar_declination (doy : ℝ) > 0.0
    · rw [if_pos hd, if_pos hd]
      exact if_congr ⟨fun h => by linarith, fun h => by linarith⟩ rfl rfl
    · rw [if_neg hd, if_neg hd]
      exact if_congr ⟨fun h => by linarith, fun h => by linarith⟩ rfl rfl
  · by_cases hd : solar_declination (doy : ℝ) > 0.0 <;> split_ifs <;> simp

/-- C2: the projected branch of `daynight_mask` does not transform each
cell's own native coordinate: because the broadcast helpers use
`np.ones_like` (solar.py lines 183-186), the point handed to the projection
collaborator for the cell with native coordinates `(x, y)` is
`(x + 1, y + 1)`.  First conjunct: for a grid whose native coordinates are
all `(0, 0)`, the code's classification of cell `(0, 0)` is computed from
`transform 1 1`.  With the projection `a ↦ (lon 0, lat 180·a − 90)` on day
100 the code marks the cell day (the shifted point projects to the north
pole) while the claim's own construction — transforming the cell's native
`(0, 0)` — marks it night (south pole). -/
theorem daynight_proj_shifted_coordinates :
    (∀ (transform : ℝ → ℝ → ℝ × ℝ) (doy : ℕ) (utc : ℝ),
      daynight_mask_proj (fun _ => 0) (fun _ => 0) transform doy utc 0 0 =
        if solar_elevation (transform 1 1).2 (transform 1 1).1 (doy : ℝ) utc > 0.0
        then 1 else 0) ∧
    daynight_mask_proj (fun _ => 0) (fun _ => 0)
      (fun a _ => ((0 : ℝ), 180 * a - 90)) 100 12 0 0 = 1 ∧
    daynight_mask_proj_claim (fun _ => 0) (fun _ => 0)
      (fun a _ => ((0 : ℝ), 180 * a - 90)) 100 12 0 0 = 0 := by
  refine ⟨?_, ?_, ?_⟩
  · intro transform doy utc
    unfold daynight_mask_proj all_x_points all_y_points
    norm_num
  · unfold daynight_mask_proj all_x_points all_y_points
    norm_num
    exact elev_north_pos
  · unfold daynight_mask_proj_claim
    norm_num
    exact le_of_lt elev_south_neg

/-- C3: the vicinity filter converts the physical radius to grid cells by
dividing by the grid spacing (2000 m / 2000 m rounds to 1 cell), and on the
5×5 grid with occurrences at (0,1) and (2,3) both `radius=2000` and
`grid_point_radius=1` produce exactly the `binary_expected` field of
`test_basic`. -/
theorem vicinity_basic_scenario :
    gridPointRadius (some 2000) none 2000 = 1 ∧
    (∀ i < 5, ∀ j < 5,
      (vicinityProcess 5 5 (gridPointRadius (some 2000) none 2000)
        vicinityBasicInput allValid noLand).1 i j = binary_expected i j) ∧
    (∀ i < 5, ∀ j < 5,
      (vicinityProcess 5 5 (gridPointRadius none (some 1) 2000)
        vicinityBasicInput allValid noLand).1 i j = binary_expected i j) := by
  have h1 : gridPointRadius (some 2000) none 2000 = 1 := by
    unfold gridPointRadius
    norm_num [round_eq]
  refine ⟨h1, ?_, ?_⟩
  · simp only [h1]
    decide
  · decide

/-- C4: the vicinity filter's output validity mask is the input's own
validity mask, and invalid cells never contribute to any valid cell's
neighbourhood maximum — two inputs agreeing on every valid grid cell (but
arbitrary at invalid cells) give identical outputs at every valid cell;
the concrete `test_masked_data` scenario reproduces the test's expected
data and mask. -/
theorem vicinity_mask_preserved (m n r : ℕ) (f g : ℕ → ℕ → ℚ)
    (valid land : ℕ → ℕ → Bool)
    (hfg : ∀ a < m, ∀ b < n, valid a b = true → f a b = g a b) :
    (vicinityProcess m n r f valid land).2 = valid ∧
    (∀ i < m, ∀ j < n, valid i j = true →
      (vicinityProcess m n r f valid land).1 i j =
        (vicinityProcess m n r g valid land).1 i j) ∧
    (∀ i < 5, ∀ j < 5,
      (vicinityProcess 5 5 1 vicinityMaskedInput maskedValid noLand).1 i j =
          maskedExpected i j ∧
        (vicinityProcess 5 5 1 vicinityMaskedInput maskedValid noLand).2 i j =
          maskedValid i j) := by
  refine ⟨rfl, ?_, by decide⟩
  intro i hi j hj hv
  show maximum_within_vicinity m n r f valid land i j =
    maximum_within_vicinity m n r g valid land i j
  unfold maximum_within_vicinity
  rw [if_pos hv, if_pos hv, hfg i hi j hj hv]
  refine Finset.fold_congr ?_
  intro p hp
  rcases Finset.mem_filter.1 hp with ⟨hmem, hcond⟩
  rcases Finset.mem_product.1 hmem with ⟨hp1, hp2⟩
  exact hfg p.1 (Finset.mem_range.1 hp1) p.2 (Finset.mem_range.1 hp2) hcond.2.2.1

/-- Witness for C4 at a concrete input: the `test_masked_data` grid and a
copy whose invalid cell (0,4) holds 999 instead of 10 have identical
outputs at every valid cell, and the output mask is the input mask. -/
theorem vicinity_mask_preserved_witness :
    (∀ a < 5, ∀ b < 5, maskedValid a b = true →
      vicinityMaskedInput a b =
        cellAt [[0, 1, 0, 0, 999], [0, 0, 0, 0, 0], [0, 0, 0, 1, 0],
          [0, 0, 0, 0, 0], [0, 0, 0, 0, 0]] a b) ∧
    ((vicinityProcess 5 5 1 vicinityMaskedInput maskedValid noLand).2 =
        maskedValid ∧
      (∀ i < 5, ∀ j < 5, maskedValid i j = true →
        (vicinityProcess 5 5 1 vicinityMaskedInput maskedValid noLand).1 i j =
          (vicinityProcess 5 5 1
            (cellAt [[0, 1, 0, 0, 999], [0, 0, 0, 0, 0], [0, 0, 0, 1, 0],
              [0, 0, 0, 0, 0], [0, 0, 0, 0, 0]]) maskedValid noLand).1 i j) ∧
      (∀ i < 5, ∀ j < 5,
        (vicinityProcess 5 5 1 vicinityMaskedInput maskedValid noLand).1 i j =
            maskedExpected i j ∧
          (vicinityProcess 5 5 1 vicinityMaskedInput maskedValid noLand).2 i j =
            maskedValid i j)) :=
  ⟨by decide, vicinity_mask_preserved 5 5 1 vicinityMaskedInput
    (cellAt [[0, 1, 0, 0, 999], [0, 0, 0, 0, 0], [0, 0, 0, 1, 0],
      [0, 0, 0, 0, 0], [0, 0, 0, 0, 0]]) maskedValid noLand (by decide)⟩

/-- C5: with a land mask, a cell's neighbourhood maximum only considers
cells of its own land/sea class — two inputs agreeing on every grid cell
of the class of `(i, j)` give the same output at `(i, j)`, so an
occurrence across the boundary never raises it; the concrete
`test_with_land_mask` scenario reproduces the test's expected output. -/
theorem vicinity_land_sea_isolation (m n r : ℕ) (f g : ℕ → ℕ → ℚ)
    (valid land : ℕ → ℕ → Bool) (i j : ℕ) (hi : i < m) (hj : j < n)
    (hfg : ∀ a < m, ∀ b < n, land a b = land i j → f a b = g a b) :
    maximum_within_vicinity m n r f valid land i j =
      maximum_within_vicinity m n r g valid land i j ∧
    (∀ a < 5, ∀ b < 5,
      maximum_within_vicinity 5 5 1 vicinityMaskedInput allValid landCols34 a b =
        landMaskExpected a b) := by
  refine ⟨?_, by decide⟩
  unfold maximum_within_vicinity
  rw [hfg i hi j hj rfl]
  split_ifs with hv
  · refine Finset.fold_congr ?_
    intro p hp
    rcases Finset.mem_filter.1 hp with ⟨hmem, hcond⟩
    rcases Finset.mem_product.1 hmem with ⟨hp1, hp2⟩
    exact hfg p.1 (Finset.mem_range.1 hp1) p.2 (Finset.mem_range.1 hp2) hcond.2.2.2
  · rfl

/-- Witness for C5 at a concrete input: on the `test_with_land_mask` grid,
changing the sea cell (0,1) from 1 to 7 leaves the land cell (0,3)'s output
unchanged. -/
theorem vicinity_land_sea_isolation_witness :
    (0 < 5 ∧ 3 < 5 ∧
      (∀ a < 5, ∀ b < 5, landCols34 a b = landCols34 0 3 →
        vicinityMaskedInput a b =
          cellAt [[0, 7, 0, 0, 10], [0, 0, 0, 0, 0], [0, 0, 0, 1, 0],
            [0, 0, 0, 0, 0], [0, 0, 0, 0, 0]] a b)) ∧
    (maximum_within_vicinity 5 5 1 vicinityMaskedInput allValid landCols34 0 3 =
        maximum_within_vicinity 5 5 1
          (cellAt [[0, 7, 0, 0, 10], [0, 0, 0, 0, 0], [0, 0, 0, 1, 0],
            [0, 0, 0, 0, 0], [0, 0, 0, 0, 0]]) allValid landCols34 0 3 ∧
      (∀ a < 5, ∀ b < 5,
        maximum_within_vicinity 5 5 1 vicinityMaskedInput allValid landCols34 a b =
          landMaskExpected a b)) :=
  ⟨⟨by decide, by decide, by decide⟩,
    vicinity_land_sea_isolation 5 5 1 vicinityMaskedInput
      (cellAt [[0, 7, 0, 0, 10], [0, 0, 0, 0, 0], [0, 0, 0, 1, 0],
        [0, 0, 0, 0, 0], [0, 0, 0, 0, 0]]) allValid landCols34 0 3
      (by decide) (by decide) (by decide)⟩

/-- C6: supplying both `radius` and `grid_point_radius` — any pair of
values, including a zero radius — is rejected at construction time, before
any field is processed. -/
theorem two_radii_error (r : ℚ) (g : ℕ) :
    mkOccurrenceWithinVicinity (some r) (some g) =
      Except.error "Only one of radius or grid_point_radius should be set" := rfl

/-- C7: `FieldTexture.process` raises the validation error exactly when some
cell holds a value other than 0 or 1, before any ratio computation; for an
all-binary input it proceeds to the ratio computation instead. -/
theorem fieldTexture_validation (m n r : ℕ) (f : ℕ → ℕ → ℚ) :
    (fieldTextureProcess m n r f =
      Except.error "Incorrect input. Cube should hold binary data only" ↔
      hasNonBinary m n f) ∧
    (¬ hasNonBinary m n f →
      fieldTextureProcess m n r f = Except.ok (calculate_ratio m n r f)) := by
  unfold fieldTextureProcess
  split_ifs with h
  · simp [h]
  · simp [h]

/-- C8: for every valid binary slice, wherever the source performs the
division (cells with positive input value) the potential-transition sum is
strictly positive, and wherever the potential-transition sum is 0 the ratio
is exactly 1. -/
theorem texture_ratio_division_guard (m n r : ℕ) (f : ℕ → ℕ → ℚ)
    (hb : binaryField m n f) :
    ∀ i < m, ∀ j < n,
      (f i j > 0 → 0 < potential_transitions m n r f i j) ∧
      (potential_transitions m n r f i j = 0 →
        calculate_ratio m n r f i j = 1) := by
  intro i hi j hj
  refine ⟨potential_pos m n r f hb i hi j hj, ?_⟩
  intro hzero
  unfold calculate_ratio
  rw [if_neg ?_]
  intro hpos
  have := potential_pos m n r f hb i hi j hj hpos
  rw [hzero] at this
  exact lt_irrefl 0 this

/-- Witness for C8 on a concrete 2×2 binary slice with a single 1. -/
theorem texture_ratio_division_guard_witness :
    binaryField 2 2 (cellAt [[1, 0], [0, 0]]) ∧
    ((cellAt [[1, 0], [0, 0]] 0 0 > 0 →
        0 < potential_transitions 2 2 1 (cellAt [[1, 0], [0, 0]]) 0 0) ∧
      (potential_transitions 2 2 1 (cellAt [[1, 0], [0, 0]]) 0 0 = 0 →
        calculate_ratio 2 2 1 (cellAt [[1, 0], [0, 0]]) 0 0 = 1)) :=
  ⟨by decide, texture_ratio_division_guard 2 2 1 (cellAt [[1, 0], [0, 0]])
    (by decide) 0 (by decide) 0 (by decide)⟩

/-- C9: for every valid binary slice the pre-threshold ratio lies in [0,1]
at every grid cell, and every cell whose input value is 0 has an
actual-transition count of exactly 0. -/
theorem texture_ratio_bounds (m n r : ℕ) (f : ℕ → ℕ → ℚ)
    (hb : binaryField m n f) :
    ∀ i < m, ∀ j < n,
      0 ≤ calculate_ratio m n r f i j ∧ calculate_ratio m n r f i j ≤ 1 ∧
      (f i j = 0 → calculate_transitions m n f i j = 0) := by
  intro i hi j hj
  have hzero : f i j = 0 → calculate_transitions m n f i j = 0 := by
    intro h0
    unfold calculate_transitions
    rw [if_neg (by rw [h0]; exact lt_irrefl 0)]
  by_cases hpos : f i j > 0
  · have hP : 0 < potential_transitions m n r f i j :=
      potential_pos m n r f hb i hi j hj hpos
    have hA0 : 0 ≤ squareNbhdSum m n r (calculate_transitions m n f) i j :=
      squareNbhdSum_nonneg m n r _ i j
        (fun a _ b _ => transitions_nonneg m n f a b)
    have hAP : squareNbhdSum m n r (calculate_transitions m n f) i j ≤
        squareNbhdSum m n r f i j * 4 := by
      have h4 : squareNbhdSum m n r (calculate_transitions m n f) i j ≤
          squareNbhdSum m n r (fun a b => 4 * f a b) i j :=
        squareNbhdSum_mono m n r _ _ i j
          (fun a ha b hbn => transitions_le_four_mul m n f hb a b ha hbn)
      have hlin : squareNbhdSum m n r (fun a b => 4 * f a b) i j =
          squareNbhdSum m n r f i j * 4 := by
        unfold squareNbhdSum
        rw [Finset.sum_mul]
        refine Finset.sum_congr rfl ?_
        intro p _
        split_ifs <;> ring
      rw [hlin] at h4
      exact h4
    unfold calculate_ratio actual_transitions
    rw [if_pos hpos, if_pos hpos]
    have hPdef : potential_transitions m n r f i j =
        squareNbhdSum m n r f i j * 4 := by
      unfold potential_transitions
      rw [if_pos hpos]
    constructor
    · exact div_nonneg hA0 (le_of_lt hP)
    · refine ⟨(div_le_one hP).2 ?_, hzero⟩
      rw [hPdef]
      exact hAP
  · unfold calculate_ratio
    rw [if_neg hpos]
    exact ⟨by norm_num, by norm_num, hzero⟩

/-- Witness for C9 on a concrete 2×2 binary slice with a single 1. -/
theorem texture_ratio_bounds_witness :
    binaryField 2 2 (cellAt [[1, 0], [0, 0]]) ∧
    (0 ≤ calculate_ratio 2 2 1 (cellAt [[1, 0], [0, 0]]) 0 0 ∧
      calculate_ratio 2 2 1 (cellAt [[1, 0], [0, 0]]) 0 0 ≤ 1 ∧
      (cellAt [[1, 0], [0, 0]] 0 0 = 0 →
        calculate_transitions 2 2 (cellAt [[1, 0], [0, 0]]) 0 0 = 0)) :=
  ⟨by decide, texture_ratio_bounds 2 2 1 (cellAt [[1, 0], [0, 0]])
    (by decide) 0 (by decide) 0 (by decide)⟩

/-- C10: the day/night mask of a slice depends on the slice's time value
only through its calendar date, hour and minute — `utc_hour` is
`(hour·60 + minute)/60` — so two time values differing only in seconds give
identical masks on both grid kinds. -/
theorem daynight_seconds_invariant (lats lons x_points y_points : ℕ → ℝ)
    (transform : ℝ → ℝ → ℝ × ℝ) (y mo d h mi s1 s2 i j : ℕ) :
    utcHour ⟨y, mo, d, h, mi, s1⟩ = ((h : ℚ) * 60 + (mi : ℚ)) / 60 ∧
    daynight_mask_latlon_slice lats lons ⟨y, mo, d, h, mi, s1⟩ i j =
      daynight_mask_latlon_slice lats lons ⟨y, mo, d, h, mi, s2⟩ i j ∧
    daynight_mask_proj_slice x_points y_points transform ⟨y, mo, d, h, mi, s1⟩ i j =
      daynight_mask_proj_slice x_points y_points transform ⟨y, mo, d, h, mi, s2⟩ i j :=
  ⟨rfl, rfl, rfl⟩
